import Mathlib

/-!
A shallow embedding of the file `bin/infer.py` of the
`infer-rfamy-rna-types` repository.

This file embeds the classification engine into Lean 4 and proves
properties of it.

Modelling conventions:
* Python `dict`s become association lists queried with `lookupAssoc`
  (first-match lookup; the concrete configurations used below have no
  duplicate keys, so this agrees with Python's last-write-wins dicts).
* Python `set`s that are only observed through membership, emptiness and
  the final deduplicated `frozenset` of enum members are modelled as
  lists; the deduplication happens when labels are converted to a
  `Finset INSDCTypes` by `InferredRfamType.build`.
* A raised Python exception (`AttributeError` from
  `getattr(INSDCTypes, rna_type)` on an unknown name) is modelled as
  `Option.none`; `some r` is a normal return.
* `re.search(pattern, name, re.IGNORECASE)` is modelled by an abstract
  boolean field `regex_search` of the `FromName` strategy: the regex
  engine is an external library, and no claim depends on its internals.
-/

/-- The `INSDCTypes` enumeration of `bin/infer.py` (26 members). -/
inductive INSDCTypes where
  | RNase_MRP_RNA
  | RNase_P_RNA
  | SRP_RNA
  | Y_RNA
  | antisense_RNA
  | autocatalytically_spliced_intron
  | guide_RNA
  | hammerhead_ribozyme
  | lncRNA
  | miRNA
  | ncRNA
  | misc_RNA
  | other
  | precursor_RNA
  | piRNA
  | rasiRNA
  | ribozyme
  | scRNA
  | siRNA
  | snRNA
  | snoRNA
  | telomerase_RNA
  | vault_RNA
  | rRNA
  | tRNA
  | tmRNA
  deriving DecidableEq, Repr

/-- Python `getattr(INSDCTypes, s)`: `some` member on a known name,
`none` (an `AttributeError`) otherwise. -/
def insdcOfName : String → Option INSDCTypes
  | "RNase_MRP_RNA" => some .RNase_MRP_RNA
  | "RNase_P_RNA" => some .RNase_P_RNA
  | "SRP_RNA" => some .SRP_RNA
  | "Y_RNA" => some .Y_RNA
  | "antisense_RNA" => some .antisense_RNA
  | "autocatalytically_spliced_intron" => some .autocatalytically_spliced_intron
  | "guide_RNA" => some .guide_RNA
  | "hammerhead_ribozyme" => some .hammerhead_ribozyme
  | "lncRNA" => some .lncRNA
  | "miRNA" => some .miRNA
  | "ncRNA" => some .ncRNA
  | "misc_RNA" => some .misc_RNA
  | "other" => some .other
  | "precursor_RNA" => some .precursor_RNA
  | "piRNA" => some .piRNA
  | "rasiRNA" => some .rasiRNA
  | "ribozyme" => some .ribozyme
  | "scRNA" => some .scRNA
  | "siRNA" => some .siRNA
  | "snRNA" => some .snRNA
  | "snoRNA" => some .snoRNA
  | "telomerase_RNA" => some .telomerase_RNA
  | "vault_RNA" => some .vault_RNA
  | "rRNA" => some .rRNA
  | "tRNA" => some .tRNA
  | "tmRNA" => some .tmRNA
  | _ => none

/-- First-match association-list lookup (Python `dict.get`). -/
def lookupAssoc {α β : Type} [DecidableEq α] : List (α × β) → α → Option β
  | [], _ => none
  | (k, v) :: rest, key => if k = key then some v else lookupAssoc rest key

/-- Python `s.rstrip(';')` on the character list of a string:
drop every trailing `';'`. -/
def rstripSemis (cs : List Char) : List Char :=
  (cs.reverse.dropWhile (fun c => c = ';')).reverse

/-- Python `s.split('; ')`: split on each leftmost occurrence of the
two-character separator `"; "`. -/
def splitSemiSpace : List Char → List (List Char)
  | [] => [[]]
  | ';' :: ' ' :: rest => [] :: splitSemiSpace rest
  | c :: rest =>
    match splitSemiSpace rest with
    | [] => [[c]]
    | h :: t => (c :: h) :: t

/-- Python `rna_type_to_key(rna_type)`: `tuple(rna_type.rstrip(';').split('; '))`.
The Python tuple of strings is modelled as a `List String`. -/
def rna_type_to_key (rna_type : String) : List String :=
  (splitSemiSpace (rstripSemis rna_type.data)).map (fun cs => String.mk cs)

/-- The `RfamFamily` record: id, name, cross-referenced SO terms
(a Python `set`, modelled as a list) and the parsed native-type key. -/
structure RfamFamily where
  id : String
  name : String
  so_terms : List String
  rna_type : List String
  deriving DecidableEq, Repr

/-- A raw strategy result handed to `InferredRfamType.build`: a single
string, a collection of optional strings (`FromSoTerms` produces `None`
entries for unmapped terms), or Python `None`. -/
inductive RawResult where
  | str (s : String)
  | coll (ss : List (Option String))
  | nil
  deriving DecidableEq, Repr

/-- The labels contained in a raw result, in iteration order. -/
def RawResult.labels : RawResult → List (Option String)
  | .str s => [some s]
  | .coll ss => ss
  | .nil => []

/-- The `InferredRfamType` result record: family, strategy method name and
the final `frozenset` of enum members. -/
structure InferredRfamType where
  family : RfamFamily
  method : String
  rna_types : Finset INSDCTypes
  deriving DecidableEq

/-- The normalization loop of `InferredRfamType.build`: the synonym
`'antisense'` is rewritten to `'antisense_RNA'`, a `None` label is
skipped, and any other label goes through
`getattr(INSDCTypes, rna_type)` — `none` models the `AttributeError`
raised there on an unrecognized name. -/
def addLabels : List (Option String) → Finset INSDCTypes → Option (Finset INSDCTypes)
  | [], acc => some acc
  | none :: rest, acc => addLabels rest acc
  | some s :: rest, acc =>
    match insdcOfName (if s = ("antisense") then ("antisense_RNA") else s) with
    | some t => addLabels rest (insert t acc)
    | none => none

/-- Python `InferredRfamType.build(family, name, result)`. -/
def InferredRfamType.build (family : RfamFamily) (name : String)
    (result : RawResult) : Option InferredRfamType :=
  match addLabels result.labels ∅ with
  | some final => some { family := family, method := name, rna_types := final }
  | none => none

/-- Python `InferredRfamType.remove(value)`: a functional update dropping one
category, the identity when the category is absent. -/
def InferredRfamType.remove (r : InferredRfamType) (value : INSDCTypes) :
    InferredRfamType :=
  if value ∈ r.rna_types then
    { r with rna_types := r.rna_types.erase value }
  else r

/-- The `ManualInference` strategy: a curator-maintained id → label table. -/
structure ManualInference where
  assignments : List (String × RawResult)

/-- Python `ManualInference.__call__`: direct lookup of the family id. -/
def ManualInference.call (m : ManualInference) (family : RfamFamily) :
    Option InferredRfamType :=
  InferredRfamType.build family ("manual")
    ((lookupAssoc m.assignments family.id).getD .nil)

/-- The `FromName` strategy: an ordered pattern → label table plus an
abstract model of `re.search(pattern, name, re.IGNORECASE)`. -/
structure FromName where
  regex_search : String → String → Bool
  informative_names : List (String × RawResult)

/-- Python `FromName.__call__`: the label of the first pattern matching the
family name, else the empty result. -/
def FromName.call (f : FromName) (family : RfamFamily) :
    Option InferredRfamType :=
  match f.informative_names.find? (fun p => f.regex_search p.1 family.name) with
  | some p => InferredRfamType.build family ("name") p.2
  | none => InferredRfamType.build family ("name") .nil

/-- The `FromRnaType` strategy: a native-type-key → label table. -/
structure FromRnaType where
  mapping : List (List String × RawResult)

/-- Python `FromRnaType.__call__`: direct lookup of the parsed native-type key. -/
def FromRnaType.call (f : FromRnaType) (family : RfamFamily) :
    Option InferredRfamType :=
  InferredRfamType.build family ("rna-type")
    ((lookupAssoc f.mapping family.rna_type).getD .nil)

/-- The `FromSoTerms` strategy: a direct SO-term → label table. -/
structure FromSoTerms where
  mapping : List (String × String)

/-- Python `FromSoTerms.__call__`: `set(mapping.get(so, None) for so in so_terms)`,
handed to `build` (which skips the `None` entries). -/
def FromSoTerms.call (f : FromSoTerms) (family : RfamFamily) :
    Option InferredRfamType :=
  InferredRfamType.build family ("so-term")
    (.coll (family.so_terms.map (fun so => lookupAssoc f.mapping so)))

/-- The ontology graph of `SoTermSearch`: node set, the `isndc` label
overlay, and directed edges (an edge `(a, b)` is an out-edge of `a`). -/
structure SoGraph where
  nodes : List String
  labels : List (String × String)
  edges : List (String × String)

/-- Python `'isndc' in node` / `node['isndc']` for a term. -/
def SoGraph.isndcOf (g : SoGraph) (t : String) : Option String :=
  lookupAssoc g.labels t

/-- Python `graph.out_edges_iter(term)`: the targets of the out-edges of `term`. -/
def SoGraph.childrenOf (g : SoGraph) (t : String) : List String :=
  (g.edges.filter (fun e => e.1 = t)).map (fun e => e.2)

/-- Python `SoTermSearch.dfs(term, depth)`: a missing term yields the empty set;
at depth 0 a term with an `isndc` label yields that singleton; at
positive depth the results of all children one level down are unioned.
The Python label `set` is modelled as a list (membership and emptiness
are the only downstream observations). -/
def soDfs (g : SoGraph) : Nat → String → List String
  | 0, term =>
    if term ∈ g.nodes then
      match g.isndcOf term with
      | some l => [l]
      | none => []
    else []
  | d + 1, term =>
    if term ∈ g.nodes then
      (g.childrenOf term).flatMap (soDfs g d)
    else []

/-- The loop of `SoTermSearch.search`: try `dfs` at depths
`d, d+1, ...` while `remaining` depths are left, returning the first
non-empty answer (Python binds the attempt to `found` and tests it). -/
def soSearchAux (g : SoGraph) (root : String) : Nat → Nat → List String
  | 0, _ => []
  | remaining + 1, d =>
    if soDfs g d root = [] then soSearchAux g root remaining (d + 1)
    else soDfs g d root

/-- The `SoTermSearch` strategy: the graph and the configured maximum
depth (`--max-depth`, default 10 in `main`). -/
structure SoTermSearch where
  graph : SoGraph
  max_depth : Nat

/-- Python `SoTermSearch.search(root)`: iterative deepening over
`range(0, max_depth)`. -/
def SoTermSearch.search (st : SoTermSearch) (root : String) : List String :=
  soSearchAux st.graph root st.max_depth 0

/-- Python `SoTermSearch.__call__`: union the per-term search results over all
cross-referenced SO terms and build a result from them. -/
def SoTermSearch.call (st : SoTermSearch) (family : RfamFamily) :
    Option InferredRfamType :=
  InferredRfamType.build family ("so-search")
    (.coll ((family.so_terms.flatMap (fun so => st.search so)).map some))

/-- The `WithFallBacks` classifier: the four primary strategies plus the
ontology search. -/
structure WithFallBacks where
  from_manual : ManualInference
  from_name : FromName
  from_rna_type : FromRnaType
  from_so_terms : FromSoTerms
  so_term_search : SoTermSearch

/-- Python `WithFallBacks.simplify(result)`: drop `misc_RNA` from a set with
more than one member, then drop `other` from a set that still has more
than one member. -/
def WithFallBacks.simplify (result : InferredRfamType) : InferredRfamType :=
  if result.rna_types = ∅ then result
  else
    let r1 :=
      if 1 < result.rna_types.card ∧ INSDCTypes.misc_RNA ∈ result.rna_types
      then result.remove .misc_RNA else result
    if 1 < r1.rna_types.card ∧ INSDCTypes.other ∈ r1.rna_types
    then r1.remove .other else r1

/-- Python `a or b` on strategy results: an exception in `a` propagates,
a truthy (non-empty) `a` is kept, otherwise `b` is evaluated. -/
def firstNonEmpty : Option InferredRfamType → Option InferredRfamType →
    Option InferredRfamType
  | none, _ => none
  | some r, b => if r.rna_types = ∅ then b else some r

/-- The `or`-chain of `WithFallBacks.__call__`:
`from_manual or from_name or from_so_terms or from_rna_type`. -/
def WithFallBacks.primary (w : WithFallBacks) (family : RfamFamily) :
    Option InferredRfamType :=
  firstNonEmpty (w.from_manual.call family)
    (firstNonEmpty (w.from_name.call family)
      (firstNonEmpty (w.from_so_terms.call family)
        (w.from_rna_type.call family)))

/-- Python `WithFallBacks.__call__`: the primary chain; if its result is empty,
the ontology search is consulted and used when non-empty and not exactly
`{other}`; if the result is still empty the record is returned
unclassified with method `"fallbacks"`; otherwise it is simplified. -/
def WithFallBacks.call (w : WithFallBacks) (family : RfamFamily) :
    Option InferredRfamType :=
  match w.primary family with
  | none => none
  | some result =>
    match
      (if result.rna_types = ∅ then
        match w.so_term_search.call family with
        | none => none
        | some possible =>
          if possible.rna_types ≠ ∅ ∧
              possible.rna_types ≠ {INSDCTypes.other}
          then some possible else some result
      else some result) with
    | none => none
    | some result =>
      if result.rna_types = ∅ then
        some { family := family, method := "fallbacks", rna_types := ∅ }
      else some (WithFallBacks.simplify result)

/-!
Helper lemmas about the functional-update and cleanup operations.
-/

theorem remove_rna_types (r : InferredRfamType) (v : INSDCTypes) :
    (r.remove v).rna_types = r.rna_types.erase v := by
  unfold InferredRfamType.remove
  split_ifs with h
  · rfl
  · rw [Finset.erase_eq_of_not_mem h]

theorem simplify_eq_self (r : InferredRfamType)
    (h : r.rna_types.card ≤ 1 ∨
      (INSDCTypes.misc_RNA ∉ r.rna_types ∧ INSDCTypes.other ∉ r.rna_types)) :
    WithFallBacks.simplify r = r := by
  have c1 : ¬ (1 < r.rna_types.card ∧ INSDCTypes.misc_RNA ∈ r.rna_types) := by
    rcases h with h | ⟨hm, _⟩
    · intro hc; omega
    · intro hc; exact hm hc.2
  have c2 : ¬ (1 < r.rna_types.card ∧ INSDCTypes.other ∈ r.rna_types) := by
    rcases h with h | ⟨_, ho⟩
    · intro hc; omega
    · intro hc; exact ho hc.2
  unfold WithFallBacks.simplify
  rw [if_neg c1, if_neg c2]
  split_ifs <;> rfl

theorem simplify_rna_types_of_misc (r : InferredRfamType)
    (hc : 1 < r.rna_types.card) (hm : INSDCTypes.misc_RNA ∈ r.rna_types) :
    (WithFallBacks.simplify r).rna_types =
      if 1 < (r.rna_types.erase .misc_RNA).card ∧
          INSDCTypes.other ∈ r.rna_types.erase .misc_RNA
      then (r.rna_types.erase .misc_RNA).erase .other
      else r.rna_types.erase .misc_RNA := by
  have h0 : ¬ r.rna_types = ∅ := by
    intro h; rw [h] at hc; simp at hc
  have hinner :
      (if 1 < r.rna_types.card ∧ INSDCTypes.misc_RNA ∈ r.rna_types
        then r.remove .misc_RNA else r) = r.remove .misc_RNA :=
    if_pos ⟨hc, hm⟩
  have hrm : (r.remove .misc_RNA).rna_types = r.rna_types.erase .misc_RNA :=
    remove_rna_types r .misc_RNA
  unfold WithFallBacks.simplify
  rw [if_neg h0, hinner]
  dsimp only
  rw [hrm]
  split_ifs with h2
  · rw [remove_rna_types, hrm]
  · exact hrm

/-!
Helper lemmas about the fallback chain of `WithFallBacks.__call__`.
-/

theorem primary_first (w : WithFallBacks) (fam : RfamFamily)
    (r1 : InferredRfamType) (h1 : w.from_manual.call fam = some r1)
    (hne : r1.rna_types ≠ ∅) : w.primary fam = some r1 := by
  unfold WithFallBacks.primary
  rw [h1]
  simp only [firstNonEmpty]
  rw [if_neg hne]

theorem primary_second (w : WithFallBacks) (fam : RfamFamily)
    (r1 r2 : InferredRfamType)
    (h1 : w.from_manual.call fam = some r1) (e1 : r1.rna_types = ∅)
    (h2 : w.from_name.call fam = some r2) (hne : r2.rna_types ≠ ∅) :
    w.primary fam = some r2 := by
  unfold WithFallBacks.primary
  rw [h1, h2]
  simp only [firstNonEmpty]
  rw [if_pos e1, if_neg hne]

theorem primary_third (w : WithFallBacks) (fam : RfamFamily)
    (r1 r2 r3 : InferredRfamType)
    (h1 : w.from_manual.call fam = some r1) (e1 : r1.rna_types = ∅)
    (h2 : w.from_name.call fam = some r2) (e2 : r2.rna_types = ∅)
    (h3 : w.from_so_terms.call fam = some r3) (hne : r3.rna_types ≠ ∅) :
    w.primary fam = some r3 := by
  unfold WithFallBacks.primary
  rw [h1, h2, h3]
  simp only [firstNonEmpty]
  rw [if_pos e1, if_pos e2, if_neg hne]

theorem primary_fourth (w : WithFallBacks) (fam : RfamFamily)
    (r1 r2 r3 r4 : InferredRfamType)
    (h1 : w.from_manual.call fam = some r1) (e1 : r1.rna_types = ∅)
    (h2 : w.from_name.call fam = some r2) (e2 : r2.rna_types = ∅)
    (h3 : w.from_so_terms.call fam = some r3) (e3 : r3.rna_types = ∅)
    (h4 : w.from_rna_type.call fam = some r4) :
    w.primary fam = some r4 := by
  unfold WithFallBacks.primary
  rw [h1, h2, h3, h4]
  simp only [firstNonEmpty]
  rw [if_pos e1, if_pos e2, if_pos e3]

theorem call_of_primary_nonempty (w : WithFallBacks) (fam : RfamFamily)
    (r : InferredRfamType) (hp : w.primary fam = some r)
    (hne : r.rna_types ≠ ∅) :
    w.call fam = some (WithFallBacks.simplify r) := by
  unfold WithFallBacks.call
  rw [hp]
  dsimp only
  rw [if_neg hne]
  dsimp only
  rw [if_neg hne]

theorem call_of_primary_empty (w : WithFallBacks) (fam : RfamFamily)
    (r p : InferredRfamType) (hp : w.primary fam = some r)
    (he : r.rna_types = ∅) (hs : w.so_term_search.call fam = some p) :
    w.call fam =
      if p.rna_types ≠ ∅ ∧ p.rna_types ≠ {INSDCTypes.other}
      then some (WithFallBacks.simplify p)
      else some { family := fam, method := "fallbacks", rna_types := ∅ } := by
  unfold WithFallBacks.call
  rw [hp]
  dsimp only
  rw [if_pos he, hs]
  dsimp only
  split_ifs with hg
  · dsimp only
    rw [if_neg hg.1]
  · dsimp only
    rw [if_pos he]

/-!
Helper lemmas about the iterative-deepening ontology search.
-/

theorem soDfs_of_not_mem (g : SoGraph) (t : String) (h : t ∉ g.nodes) :
    ∀ d, soDfs g d t = [] := by
  intro d
  cases d <;> simp [soDfs, h]

theorem soSearchAux_of_all_empty (g : SoGraph) (root : String)
    (h : ∀ d, soDfs g d root = []) :
    ∀ n d0, soSearchAux g root n d0 = [] := by
  intro n
  induction n with
  | zero => intro d0; rfl
  | succ n ih =>
    intro d0
    unfold soSearchAux
    rw [if_pos (h d0)]
    exact ih (d0 + 1)

theorem soSearchAux_eq_dfs (g : SoGraph) (root : String) :
    ∀ (n d0 d : Nat), d0 ≤ d → d < d0 + n →
      soDfs g d root ≠ [] →
      (∀ e, d0 ≤ e → e < d → soDfs g e root = []) →
      soSearchAux g root n d0 = soDfs g d root := by
  intro n
  induction n with
  | zero => intro d0 d h1 h2 _ _; omega
  | succ n ih =>
    intro d0 d h1 h2 h3 h4
    unfold soSearchAux
    by_cases h : soDfs g d0 root = []
    · rw [if_pos h]
      have hd0 : d0 ≠ d := by
        intro he; rw [he] at h; exact h3 h
      exact ih (d0 + 1) d (by omega) (by omega) h3
        (fun e he1 he2 => h4 e (by omega) he2)
    · have hdd : d = d0 := by
        by_contra hne
        exact h (h4 d0 le_rfl (by omega))
      rw [if_neg h, hdd]

theorem soSearchAux_mem (g : SoGraph) (root : String) :
    ∀ (n d0 : Nat), soSearchAux g root n d0 ≠ [] →
      ∃ d, d0 ≤ d ∧ d < d0 + n ∧ soSearchAux g root n d0 = soDfs g d root := by
  intro n
  induction n with
  | zero => intro d0 h; exact absurd rfl h
  | succ n ih =>
    intro d0 h
    unfold soSearchAux at h ⊢
    by_cases h0 : soDfs g d0 root = []
    · rw [if_pos h0] at h ⊢
      obtain ⟨d, hd1, hd2, hd3⟩ := ih (d0 + 1) h
      exact ⟨d, by omega, by omega, hd3⟩
    · rw [if_neg h0]
      exact ⟨d0, le_rfl, by omega, rfl⟩

/-!
Concrete configurations used as witnesses and counterexamples below.
-/

/-- A sample family: id `RF1`, one SO cross-reference, native key `(foo,)`. -/
def famA : RfamFamily := ⟨"RF1", "fam one", ["SO:1"], ["foo"]⟩

/-- A classifier whose SO-term table maps the family's term to `tRNA` and
whose native-type table maps its key to `rRNA`; manual and name tables
are empty. -/
def wC2 : WithFallBacks where
  from_manual := ⟨[]⟩
  from_name := ⟨fun _ _ => false, []⟩
  from_rna_type := ⟨[(["foo"], .str ("rRNA"))]⟩
  from_so_terms := ⟨[("SO:1", "tRNA")]⟩
  so_term_search := ⟨⟨[], [], []⟩, 10⟩

/-- A classifier whose manual table assigns `other` to the family and
whose name table would assign `tRNA` (every pattern matches). -/
def wC3 : WithFallBacks where
  from_manual := ⟨[("RF1", .str ("other"))]⟩
  from_name := ⟨fun _ _ => true, [("p", .str ("tRNA"))]⟩
  from_rna_type := ⟨[]⟩
  from_so_terms := ⟨[]⟩
  so_term_search := ⟨⟨[], [], []⟩, 10⟩

/-- A classifier whose manual table assigns `miRNA` to the family. -/
def wC4 : WithFallBacks where
  from_manual := ⟨[("RF1", .str ("miRNA"))]⟩
  from_name := ⟨fun _ _ => false, []⟩
  from_rna_type := ⟨[]⟩
  from_so_terms := ⟨[]⟩
  so_term_search := ⟨⟨[], [], []⟩, 10⟩

/-- A classifier all of whose tables are empty. -/
def wC5 : WithFallBacks where
  from_manual := ⟨[]⟩
  from_name := ⟨fun _ _ => false, []⟩
  from_rna_type := ⟨[]⟩
  from_so_terms := ⟨[]⟩
  so_term_search := ⟨⟨[], [], []⟩, 10⟩

/-- A two-node ontology graph whose root `SO:1` carries label `tRNA` and
has a child `SO:2`. -/
def gRootY : SoGraph := ⟨["SO:1", "SO:2"], [("SO:1", "tRNA")], [("SO:1", "SO:2")]⟩

/-- A two-node ontology graph whose root `SO:1` is unlabelled and whose
only child `SO:2` carries label `rRNA`. -/
def gChildX : SoGraph := ⟨["SO:1", "SO:2"], [("SO:2", "rRNA")], [("SO:1", "SO:2")]⟩

/-!
The claims.
-/

/-- C1, counterexample: constructing a result from the unrecognized raw
label `lincRNA` raises an `AttributeError` (modelled as `none`) instead
of normalizing the label to the `other` sentinel, both in
`InferredRfamType.build` itself and through the `ManualInference`
strategy. -/
theorem claim_C1_counterexample :
    InferredRfamType.build famA ("manual") (RawResult.str ("lincRNA")) = none ∧
    ManualInference.call ⟨[("RF1", RawResult.str ("lincRNA"))]⟩ famA = none := by
  exact ⟨by decide, by decide⟩

/-- C1, amended: during result construction a raw label is first
rewritten from the synonym `antisense` to `antisense_RNA`; if the
rewritten label is not a member name of the `INSDCTypes` enumeration,
`build` raises an `AttributeError` (modelled as `none`) — it is not
normalized to `other`; a recognized label maps directly to its member,
and a null label is skipped without error. -/
theorem claim_C1 (family : RfamFamily) (name s : String) :
    (insdcOfName (if s = ("antisense") then ("antisense_RNA") else s) = none →
      InferredRfamType.build family name (RawResult.str s) = none) ∧
    (∀ t, insdcOfName (if s = ("antisense") then ("antisense_RNA") else s) = some t →
      InferredRfamType.build family name (RawResult.str s) =
        some { family := family, method := name, rna_types := {t} }) ∧
    InferredRfamType.build family name (RawResult.coll [Option.none]) =
      some { family := family, method := name, rna_types := ∅ } := by
  refine ⟨?_, ?_, ?_⟩
  · intro h
    simp [InferredRfamType.build, RawResult.labels, addLabels, h]
  · intro t h
    simp [InferredRfamType.build, RawResult.labels, addLabels, h]
  · simp [InferredRfamType.build, RawResult.labels, addLabels]

/-- C1, witness: the amended claim evaluated on the unrecognized label
`lincRNA` (an error) and on the recognized label `tRNA` (a direct map). -/
theorem claim_C1_witness :
    (insdcOfName (if ("lincRNA") = ("antisense") then ("antisense_RNA")
        else ("lincRNA")) = none ∧
      InferredRfamType.build famA ("m") (RawResult.str ("lincRNA")) = none) ∧
    (insdcOfName (if ("tRNA") = ("antisense") then ("antisense_RNA")
        else ("tRNA")) = some INSDCTypes.tRNA ∧
      InferredRfamType.build famA ("m") (RawResult.str ("tRNA")) =
        some { family := famA, method := "m",
               rna_types := {INSDCTypes.tRNA} }) :=
  ⟨⟨by decide, (claim_C1 famA ("m") ("lincRNA")).1 (by decide)⟩,
   ⟨by decide, (claim_C1 famA ("m") ("tRNA")).2.1 INSDCTypes.tRNA (by decide)⟩⟩

/-- C2, counterexample: with the three claimed strategies yielding
`(∅, ∅, {rRNA})` — so per the claim the native-type lookup would decide —
the classifier instead answers through a fourth strategy, the direct
SO-term table (`so-term`), which sits between the name match and the
native-type lookup; the ontology search is not what decided the record
either. -/
theorem claim_C2_counterexample :
    wC2.from_manual.call famA = some ⟨famA, ("manual"), ∅⟩ ∧
    wC2.from_name.call famA = some ⟨famA, ("name"), ∅⟩ ∧
    wC2.from_rna_type.call famA = some ⟨famA, ("rna-type"), {INSDCTypes.rRNA}⟩ ∧
    wC2.call famA = some ⟨famA, ("so-term"), {INSDCTypes.tRNA}⟩ := by
  exact ⟨by decide, by decide, by decide, by decide⟩

/-- C2, amended: the classifier evaluates four strategies in the fixed
order manual override, name match, direct SO-term table, native-type
lookup; the first non-empty result terminates the chain (after cleanup),
and only when all four are empty is the ontology search consulted, its
result being used when non-empty and not exactly `{other}`. -/
theorem claim_C2 (w : WithFallBacks) (fam : RfamFamily)
    (r1 r2 r3 r4 : InferredRfamType)
    (h1 : w.from_manual.call fam = some r1)
    (h2 : w.from_name.call fam = some r2)
    (h3 : w.from_so_terms.call fam = some r3)
    (h4 : w.from_rna_type.call fam = some r4) :
    (r1.rna_types ≠ ∅ → w.call fam = some (WithFallBacks.simplify r1)) ∧
    (r1.rna_types = ∅ → r2.rna_types ≠ ∅ →
      w.call fam = some (WithFallBacks.simplify r2)) ∧
    (r1.rna_types = ∅ → r2.rna_types = ∅ → r3.rna_types ≠ ∅ →
      w.call fam = some (WithFallBacks.simplify r3)) ∧
    (r1.rna_types = ∅ → r2.rna_types = ∅ → r3.rna_types = ∅ →
      r4.rna_types ≠ ∅ → w.call fam = some (WithFallBacks.simplify r4)) ∧
    (r1.rna_types = ∅ → r2.rna_types = ∅ → r3.rna_types = ∅ →
      r4.rna_types = ∅ →
      ∀ p, w.so_term_search.call fam = some p →
        w.call fam =
          if p.rna_types ≠ ∅ ∧ p.rna_types ≠ {INSDCTypes.other}
          then some (WithFallBacks.simplify p)
          else some { family := fam, method := "fallbacks",
                      rna_types := ∅ }) := by
  refine ⟨?_, ?_, ?_, ?_, ?_⟩
  · intro hne
    exact call_of_primary_nonempty w fam r1 (primary_first w fam r1 h1 hne) hne
  · intro e1 hne
    exact call_of_primary_nonempty w fam r2
      (primary_second w fam r1 r2 h1 e1 h2 hne) hne
  · intro e1 e2 hne
    exact call_of_primary_nonempty w fam r3
      (primary_third w fam r1 r2 r3 h1 e1 h2 e2 h3 hne) hne
  · intro e1 e2 e3 hne
    exact call_of_primary_nonempty w fam r4
      (primary_fourth w fam r1 r2 r3 r4 h1 e1 h2 e2 h3 e3 h4) hne
  · intro e1 e2 e3 e4 p hp
    exact call_of_primary_empty w fam r4 p
      (primary_fourth w fam r1 r2 r3 r4 h1 e1 h2 e2 h3 e3 h4) e4 hp

/-- C2, witness: the amended chain order evaluated on `wC2`, where the
manual and name strategies are empty and the SO-term table answers. -/
theorem claim_C2_witness :
    wC2.from_so_terms.call famA = some ⟨famA, ("so-term"), {INSDCTypes.tRNA}⟩ ∧
    wC2.call famA =
      some (WithFallBacks.simplify ⟨famA, ("so-term"), {INSDCTypes.tRNA}⟩) :=
  ⟨by decide,
   (claim_C2 wC2 famA ⟨famA, ("manual"), ∅⟩ ⟨famA, ("name"), ∅⟩
      ⟨famA, ("so-term"), {INSDCTypes.tRNA}⟩
      ⟨famA, ("rna-type"), {INSDCTypes.rRNA}⟩
      (by decide) (by decide) (by decide) (by decide)).2.2.1
      (by decide) (by decide) (by decide)⟩

/-- C3, counterexample: a manual result of exactly `{other}` terminates
the fallback chain and is returned as final, even though the next
strategy would have produced the acceptable set `{tRNA}` — the chain
does not proceed past a lone generic label. -/
theorem claim_C3_counterexample :
    wC3.call famA = some ⟨famA, ("manual"), {INSDCTypes.other}⟩ ∧
    wC3.from_name.call famA = some ⟨famA, ("name"), {INSDCTypes.tRNA}⟩ := by
  exact ⟨by decide, by decide⟩

/-- C3, amended: any non-empty strategy result terminates the primary
chain, sentinels included: a manual result of exactly `{other}` or
exactly `{misc_RNA}` is accepted and returned unchanged as the final
result; only the ontology-search fallback has its result additionally
rejected when it is exactly `{other}`. -/
theorem claim_C3 (w : WithFallBacks) (fam : RfamFamily)
    (r : InferredRfamType) (h : w.from_manual.call fam = some r)
    (hs : r.rna_types = {INSDCTypes.other} ∨
      r.rna_types = {INSDCTypes.misc_RNA}) :
    w.call fam = some r := by
  have hne : r.rna_types ≠ ∅ := by
    rcases hs with h' | h' <;> rw [h'] <;> decide
  have hcard : r.rna_types.card ≤ 1 := by
    rcases hs with h' | h' <;> rw [h'] <;> decide
  rw [call_of_primary_nonempty w fam r (primary_first w fam r h hne) hne,
    simplify_eq_self r (Or.inl hcard)]

/-- C3, witness: the amended claim evaluated on `wC3`, whose manual
table assigns the lone sentinel `other` to the family. -/
theorem claim_C3_witness :
    wC3.from_manual.call famA = some ⟨famA, ("manual"), {INSDCTypes.other}⟩ ∧
    wC3.call famA = some ⟨famA, ("manual"), {INSDCTypes.other}⟩ :=
  ⟨by decide,
   claim_C3 wC3 famA ⟨famA, ("manual"), {INSDCTypes.other}⟩ (by decide)
     (Or.inl (by decide))⟩

/-- C4, counterexample: a manual result of exactly `{miRNA}` is returned
as final unchanged — the classifier never rewrites it to
`{precursor_RNA}` (no such rule exists in `simplify`). -/
theorem claim_C4_counterexample :
    wC4.call famA = some ⟨famA, ("manual"), {INSDCTypes.miRNA}⟩ ∧
    ({INSDCTypes.miRNA} : Finset INSDCTypes) ≠ {INSDCTypes.precursor_RNA} := by
  exact ⟨by decide, by decide⟩

/-- C4, amended: cleanup applies no miRNA rule at all: an accepted
result of exactly `{miRNA}` passes `simplify` unchanged (it is not
rewritten to `{precursor_RNA}`), a result `{miRNA, tRNA}` is likewise
unaffected, and a classifier whose manual strategy yields exactly
`{miRNA}` returns exactly `{miRNA}`. -/
theorem claim_C4 (w : WithFallBacks) (fam : RfamFamily)
    (r : InferredRfamType) :
    (r.rna_types = {INSDCTypes.miRNA} → WithFallBacks.simplify r = r) ∧
    (r.rna_types = {INSDCTypes.miRNA, INSDCTypes.tRNA} →
      WithFallBacks.simplify r = r) ∧
    (w.from_manual.call fam = some r → r.rna_types = {INSDCTypes.miRNA} →
      w.call fam = some r) := by
  refine ⟨?_, ?_, ?_⟩
  · intro h
    exact simplify_eq_self r (Or.inl (by rw [h]; decide))
  · intro h
    refine simplify_eq_self r (Or.inr ⟨?_, ?_⟩) <;> rw [h] <;> decide
  · intro hm h
    have hne : r.rna_types ≠ ∅ := by rw [h]; decide
    rw [call_of_primary_nonempty w fam r (primary_first w fam r hm hne) hne,
      simplify_eq_self r (Or.inl (by rw [h]; decide))]

/-- C4, witness: the amended claim evaluated on `wC4`, whose manual
table assigns `miRNA` to the family. -/
theorem claim_C4_witness :
    wC4.from_manual.call famA = some ⟨famA, ("manual"), {INSDCTypes.miRNA}⟩ ∧
    wC4.call famA = some ⟨famA, ("manual"), {INSDCTypes.miRNA}⟩ ∧
    WithFallBacks.simplify ⟨famA, ("m"), {INSDCTypes.miRNA, INSDCTypes.tRNA}⟩ =
      ⟨famA, ("m"), {INSDCTypes.miRNA, INSDCTypes.tRNA}⟩ :=
  ⟨by decide,
   (claim_C4 wC4 famA ⟨famA, ("manual"), {INSDCTypes.miRNA}⟩).2.2
     (by decide) (by decide),
   (claim_C4 wC4 famA
     ⟨famA, ("m"), {INSDCTypes.miRNA, INSDCTypes.tRNA}⟩).2.1 (by decide)⟩

/-- C5, counterexample: when every strategy fails, the final result's
method is the string `fallbacks` (the `WithFallBacks.name` property),
not `ALL`. -/
theorem claim_C5_counterexample :
    wC5.call famA = some { family := famA, method := "fallbacks",
                           rna_types := ∅ } ∧
    ("fallbacks" : String) ≠ ("ALL") := by
  exact ⟨by decide, by decide⟩

/-- C5, amended: when the four primary strategies all produce empty
results and the ontology search produces an empty result or exactly
`{other}`, the classifier returns a result with method `"fallbacks"`
and an empty category set. -/
theorem claim_C5 (w : WithFallBacks) (fam : RfamFamily)
    (r1 r2 r3 r4 p : InferredRfamType)
    (h1 : w.from_manual.call fam = some r1) (e1 : r1.rna_types = ∅)
    (h2 : w.from_name.call fam = some r2) (e2 : r2.rna_types = ∅)
    (h3 : w.from_so_terms.call fam = some r3) (e3 : r3.rna_types = ∅)
    (h4 : w.from_rna_type.call fam = some r4) (e4 : r4.rna_types = ∅)
    (hs : w.so_term_search.call fam = some p)
    (hp : p.rna_types = ∅ ∨ p.rna_types = {INSDCTypes.other}) :
    w.call fam = some { family := fam, method := "fallbacks",
                        rna_types := ∅ } := by
  rw [call_of_primary_empty w fam r4 p
    (primary_fourth w fam r1 r2 r3 r4 h1 e1 h2 e2 h3 e3 h4) e4 hs]
  rw [if_neg ?hg]
  case hg =>
    rcases hp with h | h <;> simp [h]

/-- C5, witness: the amended claim evaluated on `wC5`, where every
table is empty and the ontology search finds nothing. -/
theorem claim_C5_witness :
    wC5.so_term_search.call famA = some ⟨famA, ("so-search"), ∅⟩ ∧
    wC5.call famA = some { family := famA, method := "fallbacks",
                           rna_types := ∅ } :=
  ⟨by decide,
   claim_C5 wC5 famA ⟨famA, ("manual"), ∅⟩ ⟨famA, ("name"), ∅⟩
     ⟨famA, ("so-term"), ∅⟩ ⟨famA, ("rna-type"), ∅⟩ ⟨famA, ("so-search"), ∅⟩
     (by decide) (by decide) (by decide) (by decide) (by decide) (by decide)
     (by decide) (by decide) (by decide) (Or.inl (by decide))⟩

/-- C6, confirmed: cleanup drops `misc_RNA` first from any set with more
than one member containing it, and only afterwards (if the set still has
more than one member) drops `other`; in particular
`{misc_RNA, other, tRNA}` cleans to `{tRNA}`, and `{misc_RNA, other}`
cleans to `{other}` (the order is observable here: `other` survives
because the set became a singleton after `misc_RNA` was dropped). -/
theorem claim_C6 (r : InferredRfamType) :
    (1 < r.rna_types.card → INSDCTypes.misc_RNA ∈ r.rna_types →
      (WithFallBacks.simplify r).rna_types =
        if 1 < (r.rna_types.erase INSDCTypes.misc_RNA).card ∧
            INSDCTypes.other ∈ r.rna_types.erase INSDCTypes.misc_RNA
        then (r.rna_types.erase INSDCTypes.misc_RNA).erase INSDCTypes.other
        else r.rna_types.erase INSDCTypes.misc_RNA) ∧
    (r.rna_types = {INSDCTypes.misc_RNA, INSDCTypes.other, INSDCTypes.tRNA} →
      (WithFallBacks.simplify r).rna_types = {INSDCTypes.tRNA}) ∧
    (r.rna_types = {INSDCTypes.misc_RNA, INSDCTypes.other} →
      (WithFallBacks.simplify r).rna_types = {INSDCTypes.other}) := by
  refine ⟨?_, ?_, ?_⟩
  · intro hc hm
    exact simplify_rna_types_of_misc r hc hm
  · intro h
    rw [simplify_rna_types_of_misc r (by rw [h]; decide) (by rw [h]; decide), h]
    decide
  · intro h
    rw [simplify_rna_types_of_misc r (by rw [h]; decide) (by rw [h]; decide), h]
    decide

/-- C6, witness: the cleanup rules evaluated on the two sets of the
claim. -/
theorem claim_C6_witness :
    (WithFallBacks.simplify ⟨famA, ("m"),
      {INSDCTypes.misc_RNA, INSDCTypes.other, INSDCTypes.tRNA}⟩).rna_types =
      {INSDCTypes.tRNA} ∧
    (WithFallBacks.simplify ⟨famA, ("m"),
      {INSDCTypes.misc_RNA, INSDCTypes.other}⟩).rna_types =
      {INSDCTypes.other} :=
  ⟨(claim_C6 ⟨famA, ("m"),
      {INSDCTypes.misc_RNA, INSDCTypes.other, INSDCTypes.tRNA}⟩).2.1
      (by decide),
   (claim_C6 ⟨famA, ("m"),
      {INSDCTypes.misc_RNA, INSDCTypes.other}⟩).2.2 (by decide)⟩

/-- C7, confirmed: the per-term iterative deepening prefers the lowest
depth: a root carrying a pre-assigned label `Y` yields `{Y}` whatever
the children are (depth 0 wins as soon as one depth is allowed); an
unlabelled root whose single child carries label `X` yields `{X}` (two
depths allowed); and in general the search result is the `dfs` result of
the first non-empty depth — no larger depth is explored. -/
theorem claim_C7 (st : SoTermSearch) (root : String) :
    (∀ Y, root ∈ st.graph.nodes → st.graph.isndcOf root = some Y →
      1 ≤ st.max_depth → st.search root = [Y]) ∧
    (∀ c X, root ∈ st.graph.nodes → st.graph.isndcOf root = none →
      st.graph.childrenOf root = [c] → c ∈ st.graph.nodes →
      st.graph.isndcOf c = some X → 2 ≤ st.max_depth →
      st.search root = [X]) ∧
    (∀ d, d < st.max_depth → soDfs st.graph d root ≠ [] →
      (∀ e, e < d → soDfs st.graph e root = []) →
      st.search root = soDfs st.graph d root) := by
  have key : ∀ d, d < st.max_depth → soDfs st.graph d root ≠ [] →
      (∀ e, e < d → soDfs st.graph e root = []) →
      st.search root = soDfs st.graph d root := by
    intro d hd hne hbelow
    exact soSearchAux_eq_dfs st.graph root st.max_depth 0 d (Nat.zero_le d)
      (by omega) hne (fun e _ he2 => hbelow e he2)
  refine ⟨?_, ?_, key⟩
  · intro Y hmem hlab hmd
    have h0 : soDfs st.graph 0 root = [Y] := by
      simp [soDfs, hmem, hlab]
    rw [key 0 (by omega) (by rw [h0]; exact List.cons_ne_nil Y [])
      (fun e he => absurd he (Nat.not_lt_zero e)), h0]
  · intro c X hmem hlab hch hcm hcl hmd
    have h0 : soDfs st.graph 0 root = [] := by
      simp [soDfs, hmem, hlab]
    have h1 : soDfs st.graph 1 root = [X] := by
      simp [soDfs, hmem, hch, hcm, hcl]
    have hbelow : ∀ e, e < 1 → soDfs st.graph e root = [] := by
      intro e he
      have he0 : e = 0 := by omega
      rw [he0]
      exact h0
    rw [key 1 (by omega) (by rw [h1]; exact List.cons_ne_nil X []) hbelow, h1]

/-- C7, witness: the depth preference evaluated on the two concrete
two-node graphs `gRootY` (labelled root) and `gChildX` (labelled child),
with the default maximum depth 10. -/
theorem claim_C7_witness :
    SoTermSearch.search ⟨gRootY, 10⟩ ("SO:1") = [("tRNA")] ∧
    SoTermSearch.search ⟨gChildX, 10⟩ ("SO:1") = [("rRNA")] ∧
    SoTermSearch.search ⟨gChildX, 10⟩ ("SO:1") = soDfs gChildX 1 ("SO:1") :=
  ⟨(claim_C7 ⟨gRootY, 10⟩ ("SO:1")).1 ("tRNA") (by decide) (by decide)
     (by decide),
   (claim_C7 ⟨gChildX, 10⟩ ("SO:1")).2.1 ("SO:2") ("rRNA") (by decide)
     (by decide) (by decide) (by decide) (by decide) (by decide),
   (claim_C7 ⟨gChildX, 10⟩ ("SO:1")).2.2 1 (by decide) (by decide)
     (fun e he => by
       have he0 : e = 0 := by omega
       rw [he0]
       decide)⟩

/-- C8, confirmed: `rna_type_to_key` maps `tRNA; rRNA;` to the pair
`(tRNA, rRNA)`, and for every native-type string appending a trailing
`;` does not change the key (all trailing semicolons are stripped before
splitting). -/
theorem claim_C8 :
    rna_type_to_key ("tRNA; rRNA;") = [("tRNA"), ("rRNA")] ∧
    ∀ s : String, rna_type_to_key (s ++ (";")) = rna_type_to_key s := by
  constructor
  · decide
  · intro s
    unfold rna_type_to_key
    have hd : (s ++ (";")).data = s.data ++ [';'] := by
      cases s
      rfl
    rw [hd]
    have hr : rstripSemis (s.data ++ [';']) = rstripSemis s.data := by
      unfold rstripSemis
      rw [List.reverse_append]
      simp [List.dropWhile]
    rw [hr]

/-- C9, confirmed: a term absent from the ontology graph yields the
empty set at every depth and from the full search, and through the
strategy it contributes nothing to the union over the family's
cross-referenced terms — no error is raised (a family whose only term is
absent gets a normal empty `so-search` result). -/
theorem claim_C9 (st : SoTermSearch) (t : String)
    (h : t ∉ st.graph.nodes) :
    (∀ d, soDfs st.graph d t = []) ∧
    st.search t = [] ∧
    (∀ id nm rt rest,
      SoTermSearch.call st ⟨id, nm, t :: rest, rt⟩ =
        InferredRfamType.build ⟨id, nm, t :: rest, rt⟩ ("so-search")
          (RawResult.coll
            ((rest.flatMap (fun so => st.search so)).map some))) ∧
    (∀ id nm rt,
      SoTermSearch.call st ⟨id, nm, [t], rt⟩ =
        some { family := ⟨id, nm, [t], rt⟩, method := "so-search",
               rna_types := ∅ }) := by
  have hdfs : ∀ d, soDfs st.graph d t = [] := soDfs_of_not_mem st.graph t h
  have hsearch : st.search t = [] :=
    soSearchAux_of_all_empty st.graph t hdfs st.max_depth 0
  refine ⟨hdfs, hsearch, ?_, ?_⟩
  · intro id nm rt rest
    unfold SoTermSearch.call
    rw [List.flatMap_cons, hsearch, List.nil_append]
  · intro id nm rt
    unfold SoTermSearch.call
    rw [List.flatMap_cons, hsearch, List.nil_append, List.flatMap_nil]
    rfl

/-- C9, witness: the tolerance of missing terms evaluated on `gRootY`
with the absent term `SO:9`. -/
theorem claim_C9_witness :
    (("SO:9") ∉ gRootY.nodes) ∧
    SoTermSearch.search ⟨gRootY, 10⟩ ("SO:9") = [] ∧
    SoTermSearch.call ⟨gRootY, 10⟩ ⟨("RF1"), ("f"), [("SO:9")], []⟩ =
      some { family := ⟨("RF1"), ("f"), [("SO:9")], []⟩,
             method := "so-search", rna_types := ∅ } :=
  ⟨by decide,
   (claim_C9 ⟨gRootY, 10⟩ ("SO:9") (by decide)).2.1,
   (claim_C9 ⟨gRootY, 10⟩ ("SO:9") (by decide)).2.2.2 ("RF1") ("f") []⟩

/-- C10, confirmed: the iterative deepening attempts only depths
`0 … max_depth - 1`: any non-empty search answer is the `dfs` result of
some depth strictly below `max_depth`, and with `max_depth = 0` the
search returns the empty set for every term (including a term that
itself carries a pre-assigned category, as the witness shows). -/
theorem claim_C10 (st : SoTermSearch) (root : String) :
    (st.search root ≠ [] →
      ∃ d, d < st.max_depth ∧ st.search root = soDfs st.graph d root) ∧
    (st.max_depth = 0 → st.search root = []) := by
  constructor
  · intro h
    obtain ⟨d, _, hd2, hd3⟩ := soSearchAux_mem st.graph root st.max_depth 0 h
    exact ⟨d, by omega, hd3⟩
  · intro h
    unfold SoTermSearch.search
    rw [h]
    rfl

/-- C10, witness: with `max_depth = 0` the search on the labelled root
of `gRootY` is empty, while with the default `max_depth = 10` the same
search is non-empty and is the answer of some attempted depth below 10. -/
theorem claim_C10_witness :
    SoTermSearch.search ⟨gRootY, 0⟩ ("SO:1") = [] ∧
    gRootY.isndcOf ("SO:1") = some ("tRNA") ∧
    (∃ d, d < 10 ∧
      SoTermSearch.search ⟨gRootY, 10⟩ ("SO:1") = soDfs gRootY d ("SO:1")) :=
  ⟨(claim_C10 ⟨gRootY, 0⟩ ("SO:1")).2 rfl,
   by decide,
   (claim_C10 ⟨gRootY, 10⟩ ("SO:1")).1 (by decide)⟩
